import Mathlib

/-!
Verification of the admin-panel pages of the `bnsn` repository:
the users-management page (`src/client/src/app/admin/users/page.tsx`)
and the categories page.  The development shallowly embeds the local
UI state of both page controllers — search debouncing, the data-load
operations, pagination handlers, and the category tree's expansion
set — as pure Lean functions, and proves the specified properties
about them.
-/

/-! ## Debounced search (both pages)

`useDebounce(value, 400)` on the users page and the explicit debounce
effect on the categories page both schedule `setTimeout` for the latest
input value and cancel the previously pending timer on every new input.
We embed the timeline of raw inputs as a list of timestamped values and
derive which scheduled timers fire under `setTimeout`/`clearTimeout`
semantics: a timer scheduled at time `t` is cancelled exactly when a
later input arrives strictly before `t + delay`. -/

/-- A raw search-input event: the time it occurs and the text value. -/
structure TimedInput where
  time : Nat
  value : String
deriving DecidableEq, Repr

/-- The debounce delay of the users page (`useDebounce(searchTerm, 400)`). -/
def usersDebounceDelay : Nat := 400

/-- The debounce delay of the categories page (`setTimeout(..., 500)`). -/
def categoriesDebounceDelay : Nat := 500

/-- The sequence of debounced values actually published, per
`setTimeout`/`clearTimeout`: each input schedules a timer for its value;
a following input arriving strictly before `time + delay` cancels it
(the effect cleanup runs `clearTimeout`); the timer of the last input
always fires. -/
def firedValues (delay : Nat) : List TimedInput → List String
  | [] => []
  | [i] => [i.value]
  | i :: j :: rest =>
    (if i.time + delay ≤ j.time then [i.value] else []) ++ firedValues delay (j :: rest)

/-- Publishing a fired value sets the debounced query; the data loader is
edge-triggered on the debounced query (a `useEffect` keyed on it), so a
reload fires exactly when the published value differs from the current
debounced query.  Returns the final debounced query and the reload trace. -/
def publishFired (debounced : String) : List String → String × List String
  | [] => (debounced, [])
  | v :: vs =>
    let rest := publishFired v vs
    (rest.1, (if v = debounced then [] else [v]) ++ rest.2)

/-- The reloads triggered by a timeline of raw inputs, starting from
debounced query `d0`. -/
def reloadsOf (delay : Nat) (d0 : String) (inputs : List TimedInput) : List String :=
  (publishFired d0 (firedValues delay inputs)).2

/-- Two consecutive inputs are inside the debounce window when the second
arrives strictly before the first one's timer deadline. -/
def withinWindow (delay : Nat) (a b : TimedInput) : Prop :=
  b.time < a.time + delay

instance (delay : Nat) (a b : TimedInput) : Decidable (withinWindow delay a b) :=
  inferInstanceAs (Decidable (b.time < a.time + delay))

/-! ## Users page state -/

/-- The pagination snapshot of the users page
(`useState({currentPage: 1, totalPages: 1, totalItems: 0, itemsPerPage: 25})`). -/
structure Pagination where
  currentPage : Nat
  totalPages : Nat
  totalItems : Nat
  itemsPerPage : Nat
deriving DecidableEq, Repr

/-- A user record as rendered by the users page (`AdminUser`). -/
structure AdminUser where
  _id : String
  firstName : String
  lastName : String
  email : String
  role : String
  wordsUsed : Nat
  totalWords : Nat
  createdAt : String
deriving DecidableEq, Repr

/-- The local state of the users page controller. -/
structure UsersPageState where
  users : List AdminUser
  loading : Bool
  searchTerm : String
  debouncedSearch : String
  selectedUser : Option AdminUser
  showCreateModal : Bool
  showEditModal : Bool
  pagination : Pagination
  errorLog : List String
deriving DecidableEq, Repr

/-- The users page state at mount. -/
def initialUsersPageState : UsersPageState :=
  { users := []
    loading := true
    searchTerm := ""
    debouncedSearch := ""
    selectedUser := none
    showCreateModal := false
    showEditModal := false
    pagination := { currentPage := 1, totalPages := 1, totalItems := 0, itemsPerPage := 25 }
    errorLog := [] }

/-- The outcome of `adminApi.getUsers`: on success, the record list and
the fresh pagination snapshot; on failure, an error message. -/
abbrev UsersFetch := Except String (List AdminUser × Pagination)

/-- `setLoading(true)` before issuing the request in `loadUsers`. -/
def loadUsersStart (s : UsersPageState) : UsersPageState :=
  { s with loading := true }

/-- The remainder of `loadUsers`: on success `setUsers`/`setPagination`
replace the list and pagination wholesale; on failure `console.error`
logs and nothing else changes; `finally` runs `setLoading(false)` on
both paths. -/
def loadUsersFinish (resp : UsersFetch) (s : UsersPageState) : UsersPageState :=
  match resp with
  | Except.ok (data, pag) =>
    { s with users := data, pagination := pag, loading := false }
  | Except.error e =>
    { s with errorLog := s.errorLog ++ ["Error loading users: " ++ e], loading := false }

/-- The whole `loadUsers` operation for a given fetch outcome. -/
def loadUsers (resp : UsersFetch) (s : UsersPageState) : UsersPageState :=
  loadUsersFinish resp (loadUsersStart s)

/-- `handlePageChange`: `setPagination(prev => ({...prev, currentPage: page}))`. -/
def handlePageChange (page : Nat) (s : UsersPageState) : UsersPageState :=
  { s with pagination := { s.pagination with currentPage := page } }

/-- `handleItemsPerPageChange`:
`setPagination(prev => ({...prev, itemsPerPage, currentPage: 1}))`. -/
def handleItemsPerPageChange (itemsPerPage : Nat) (s : UsersPageState) : UsersPageState :=
  { s with pagination := { s.pagination with itemsPerPage := itemsPerPage, currentPage := 1 } }

/-- `handleSearch`: `setSearchTerm(value)` and
`setPagination(prev => ({...prev, currentPage: 1}))`. -/
def handleSearch (value : String) (s : UsersPageState) : UsersPageState :=
  { s with searchTerm := value, pagination := { s.pagination with currentPage := 1 } }

/-- A call made against the external API by a users-page handler. -/
inductive ApiCall where
  | reload (page itemsPerPage : Nat) (query : String)
  | deleteUser (userId : String)
deriving DecidableEq, Repr

/-- The reload call `loadUsers` issues, with the page, page size and
debounced query its closure reads from the current state. -/
def reloadCallOf (s : UsersPageState) : ApiCall :=
  ApiCall.reload s.pagination.currentPage s.pagination.itemsPerPage s.debouncedSearch

/-- `handleDeleteUser(userId)`: if the `confirm` dialog is accepted,
call the delete endpoint and, on success, reload; if the dialog is
cancelled, do nothing at all.  Returns the new state together with the
trace of API calls issued. -/
def handleDeleteUser (confirmed : Bool) (deleteResp : Except String Unit)
    (loadResp : UsersFetch) (userId : String) (s : UsersPageState) :
    UsersPageState × List ApiCall :=
  if confirmed then
    match deleteResp with
    | Except.ok _ => (loadUsers loadResp s, [ApiCall.deleteUser userId, reloadCallOf s])
    | Except.error e =>
      ({ s with errorLog := s.errorLog ++ ["Error deleting user: " ++ e] },
       [ApiCall.deleteUser userId])
  else (s, [])

/-- `handleCreateUser(newUser)`: on a successful register response,
`await loadUsers()` then `setShowCreateModal(false)`; on failure, log
and alert, leaving the modal open and issuing no reload.  Returns the
new state together with the trace of reload calls issued. -/
def handleCreateUser (registerResp : Except String Unit) (loadResp : UsersFetch)
    (s : UsersPageState) : UsersPageState × List ApiCall :=
  match registerResp with
  | Except.ok _ =>
    let s1 := loadUsers loadResp s
    ({ s1 with showCreateModal := false }, [reloadCallOf s])
  | Except.error e =>
    ({ s with errorLog := s.errorLog ++ ["Error creating user: " ++ e] }, [])

/-! ## Usage progress bar (users page) -/

/-- The width (in percent) of the usage progress bar:
`Math.min((user.wordsUsed / user.totalWords) * 100, 100)`. -/
def usageBarWidth (wordsUsed totalWords : Nat) : ℚ :=
  min ((wordsUsed / totalWords : ℚ) * 100) 100

/-- The adjacent percentage text:
`Math.round((user.wordsUsed / user.totalWords) * 100)`, not capped. -/
def usagePercentText (wordsUsed totalWords : Nat) : ℤ :=
  round ((wordsUsed / totalWords : ℚ) * 100)

/-! ## Categories page -/

/-- A category record; `children` is the recursive sub-category list
(absent in the API is embedded as the empty list, which the page treats
identically: every guard is `children && children.length > 0`). -/
inductive Category where
  | mk (_id : String) (title : String) («alias» : String) (type : String)
      (level : Nat) (children : List Category)

/-- The `_id` field of a category. -/
def Category._id : Category → String
  | Category.mk i _ _ _ _ _ => i

/-- The `children` field of a category. -/
def Category.children : Category → List Category
  | Category.mk _ _ _ _ _ c => c

/-- The `title` field of a category. -/
def Category.title : Category → String
  | Category.mk _ t _ _ _ _ => t

/-- The inner `collectIds` of `expandAllCategories`: walk the forest in
pre-order and, for every node with a non-empty `children` list, add its
id and recurse into the children. -/
def collectIds : List Category → Finset String
  | [] => ∅
  | Category.mk i _ _ _ _ ch :: cs =>
    (if ch.isEmpty then ∅ else insert i (collectIds ch)) ∪ collectIds cs

/-- `expandAllCategories(categories)`: replace the expansion set with the
collected ids, ignoring the previous set. -/
def expandAllCategories (categories : List Category) (_prev : Finset String) : Finset String :=
  collectIds categories

/-- `collapseAllCategories`: `setExpandedCategories(new Set())`. -/
def collapseAllCategories (_prev : Finset String) : Finset String := ∅

/-- `toggleExpanded(categoryId)`: copy the set and flip the membership of
the one id. -/
def toggleExpanded (categoryId : String) (expandedCategories : Finset String) :
    Finset String :=
  if categoryId ∈ expandedCategories then expandedCategories.erase categoryId
  else insert categoryId expandedCategories

/-- The expand/collapse affordance is rendered only when
`category.children && category.children.length > 0`. -/
def hasExpandControl (c : Category) : Bool :=
  !c.children.isEmpty

/-- All nodes of the forest in pre-order (used to state which ids
`collectIds` gathers). -/
def preorderNodes : List Category → List Category
  | [] => []
  | (Category.mk i t a ty lv ch) :: cs =>
    Category.mk i t a ty lv ch :: (preorderNodes ch ++ preorderNodes cs)

/-- The rows produced by `renderCategoryTree(categories, level)`: each
category contributes a row `(its id, level)`; the child subtree is
rendered, at `level + 1`, exactly when the node has children and its id
is in the expansion set. -/
def renderCategoryTree (expanded : Finset String) :
    List Category → Nat → List (String × Nat)
  | [], _ => []
  | Category.mk i _ _ _ _ ch :: cs, level =>
    (i, level) ::
      ((if ¬ ch.isEmpty ∧ i ∈ expanded
        then renderCategoryTree expanded ch (level + 1) else []) ++
       renderCategoryTree expanded cs level)

/-- The local state of the categories page controller. -/
structure CategoriesPageState where
  categories : List Category
  loading : Bool
  searchTerm : String
  debouncedSearch : String
  expandedCategories : Finset String
  errorLog : List String

/-- The outcome of `adminApi.getCategories(1, 25, search)`. -/
abbrev CategoriesFetch := Except String (List Category)

/-- `setLoading(true)` before issuing the request in `loadCategories`. -/
def loadCategoriesStart (s : CategoriesPageState) : CategoriesPageState :=
  { s with loading := true }

/-- The remainder of `loadCategories`: on success `setCategories`
replaces the list; on failure `console.error` logs; `finally` runs
`setLoading(false)` on both paths. -/
def loadCategoriesFinish (resp : CategoriesFetch) (s : CategoriesPageState) :
    CategoriesPageState :=
  match resp with
  | Except.ok data => { s with categories := data, loading := false }
  | Except.error e =>
    { s with errorLog := s.errorLog ++ ["Error loading categories: " ++ e], loading := false }

/-- The whole `loadCategories` operation for a given fetch outcome. -/
def loadCategories (resp : CategoriesFetch) (s : CategoriesPageState) : CategoriesPageState :=
  loadCategoriesFinish resp (loadCategoriesStart s)

/-! ## Sample data (the spec's worked example `[A{children:[B,C]}]`) -/

/-- Leaf category B of the spec's worked example. -/
def catB : Category := Category.mk "B" "B" "b" "blueprint" 1 []

/-- Leaf category C of the spec's worked example. -/
def catC : Category := Category.mk "C" "C" "c" "blueprint" 1 []

/-- Root category A with children `[B, C]`. -/
def catA : Category := Category.mk "A" "A" "a" "blueprint" 0 [catB, catC]

/-! ## Theorems -/

/-- Claim C2: for every execution of `loadUsers` or `loadCategories`, if
the fetch fails, the existing list state (and, on the users page, the
pagination snapshot) is left exactly as before the call, the error is
only logged, and the loading flag is still cleared. -/
theorem load_failure_preserves_state (s : UsersPageState) (t : CategoriesPageState)
    (e e2 : String) :
    (loadUsers (Except.error e) s).users = s.users ∧
    (loadUsers (Except.error e) s).pagination = s.pagination ∧
    (loadUsers (Except.error e) s).loading = false ∧
    (loadUsers (Except.error e) s).errorLog = s.errorLog ++ ["Error loading users: " ++ e] ∧
    (loadCategories (Except.error e2) t).categories = t.categories ∧
    (loadCategories (Except.error e2) t).loading = false ∧
    (loadCategories (Except.error e2) t).errorLog
      = t.errorLog ++ ["Error loading categories: " ++ e2] :=
  ⟨rfl, rfl, rfl, rfl, rfl, rfl, rfl⟩

/-- Claim C3: every execution of the load operation sets the loading flag
to true before issuing the request and back to false after completion on
every path, success or failure. -/
theorem load_sets_and_clears_loading (s : UsersPageState) (t : CategoriesPageState)
    (resp : UsersFetch) (respC : CategoriesFetch) :
    (loadUsersStart s).loading = true ∧
    (loadUsers resp s).loading = false ∧
    (loadCategoriesStart t).loading = true ∧
    (loadCategories respC t).loading = false := by
  refine ⟨rfl, ?_, rfl, ?_⟩
  · cases resp with
    | ok v => cases v; rfl
    | error e => rfl
  · cases respC with
    | ok v => rfl
    | error e => rfl

/-- Claim C6: on the users page, `handleItemsPerPageChange` and
`handleSearch` reset `currentPage` to 1, while `handlePageChange p`
updates `currentPage` only (no local bounds validation), leaving
`totalPages`, `totalItems` and `itemsPerPage` unchanged. -/
theorem pagination_handlers_spec (s : UsersPageState) (page n : Nat) (v : String) :
    (handlePageChange page s).pagination.currentPage = page ∧
    (handlePageChange page s).pagination.totalPages = s.pagination.totalPages ∧
    (handlePageChange page s).pagination.totalItems = s.pagination.totalItems ∧
    (handlePageChange page s).pagination.itemsPerPage = s.pagination.itemsPerPage ∧
    (handlePageChange page s).users = s.users ∧
    (handlePageChange page s).searchTerm = s.searchTerm ∧
    (handleItemsPerPageChange n s).pagination.itemsPerPage = n ∧
    (handleItemsPerPageChange n s).pagination.currentPage = 1 ∧
    (handleItemsPerPageChange n s).pagination.totalPages = s.pagination.totalPages ∧
    (handleItemsPerPageChange n s).pagination.totalItems = s.pagination.totalItems ∧
    (handleSearch v s).searchTerm = v ∧
    (handleSearch v s).pagination.currentPage = 1 :=
  ⟨rfl, rfl, rfl, rfl, rfl, rfl, rfl, rfl, rfl, rfl, rfl, rfl⟩

/-- Claim C7: on the users page, a successful create-user submission
closes the create modal and issues exactly one reload call, carrying the
current page (at mount, page 1), page size and debounced query. -/
theorem create_success_reloads_once (s : UsersPageState) (loadResp : UsersFetch) :
    (handleCreateUser (Except.ok ()) loadResp s).1.showCreateModal = false ∧
    (handleCreateUser (Except.ok ()) loadResp s).2
      = [ApiCall.reload s.pagination.currentPage s.pagination.itemsPerPage
          s.debouncedSearch] ∧
    initialUsersPageState.pagination.currentPage = 1 :=
  ⟨rfl, rfl, rfl⟩

/-- Claim C8: on the users page, cancelling the delete confirmation
dialog issues zero API calls (no delete, no reload) and leaves the state
untouched; the destructive call is only made after confirmation. -/
theorem delete_cancelled_no_calls (deleteResp : Except String Unit)
    (loadResp : UsersFetch) (userId : String) (s : UsersPageState) :
    handleDeleteUser false deleteResp loadResp userId s = (s, []) :=
  rfl

/-- Claim C10: for every rendered user record with `totalWords > 0`, the
usage progress-bar width `min((wordsUsed / totalWords) * 100, 100)`
never exceeds 100 percent, even when `wordsUsed` exceeds `totalWords`;
the adjacent rounded percentage text is not capped in the same way and
can exceed 100. -/
theorem usage_bar_capped (wordsUsed totalWords : Nat) (h : 0 < totalWords) :
    usageBarWidth wordsUsed totalWords ≤ 100 ∧
    100 < usagePercentText 150 100 := by
  constructor
  · exact min_le_right _ _
  · have : usagePercentText 150 100 = 150 := by norm_num [usagePercentText]
    omega

/-- Witness for C10 at the concrete record `wordsUsed = 150`,
`totalWords = 100`. -/
theorem usage_bar_capped_witness :
    usageBarWidth 150 100 ≤ 100 ∧ 100 < usagePercentText 150 100 :=
  usage_bar_capped 150 100 (by norm_num)

lemma mem_collectIds (cats : List Category) (x : String) :
    x ∈ collectIds cats ↔ ∃ c, c ∈ preorderNodes cats ∧ c._id = x ∧ c.children ≠ [] := by
  induction cats using collectIds.induct with
  | case1 => simp [collectIds, preorderNodes]
  | case2 i t a ty lv ch cs ih_ch ih_cs =>
    rw [collectIds, preorderNodes]
    by_cases hch : ch.isEmpty
    · rw [if_pos hch]
      rw [List.isEmpty_iff] at hch
      subst hch
      simp only [preorderNodes, List.nil_append, Finset.empty_union, List.mem_cons]
      rw [ih_cs]
      constructor
      · rintro ⟨c, hc, hid, hne⟩
        exact ⟨c, Or.inr hc, hid, hne⟩
      · rintro ⟨c, hc | hc, hid, hne⟩
        · subst hc
          simp [Category.children] at hne
        · exact ⟨c, hc, hid, hne⟩
    · rw [if_neg hch]
      simp only [Finset.mem_union, Finset.mem_insert, ih_ch, ih_cs, List.mem_cons,
        List.mem_append]
      constructor
      · rintro ((rfl | ⟨c, hc, hid, hne⟩) | ⟨c, hc, hid, hne⟩)
        · refine ⟨Category.mk x t a ty lv ch, Or.inl rfl, rfl, ?_⟩
          simpa [Category.children, List.isEmpty_iff] using hch
        · exact ⟨c, Or.inr (Or.inl hc), hid, hne⟩
        · exact ⟨c, Or.inr (Or.inr hc), hid, hne⟩
      · rintro ⟨c, rfl | hc | hc, hid, hne⟩
        · left; left; simpa [Category._id] using hid.symm
        · exact Or.inl (Or.inr ⟨c, hc, hid, hne⟩)
        · exact Or.inr ⟨c, hc, hid, hne⟩

lemma renderCategoryTree_ne_nil (s : Finset String) (cats : List Category) (lvl : Nat)
    (h : cats ≠ []) : renderCategoryTree s cats lvl ≠ [] := by
  cases cats with
  | nil => exact absurd rfl h
  | cons c cs => cases c; simp [renderCategoryTree]

lemma renderCategoryTree_singleton (s : Finset String) (c : Category) (lvl : Nat) :
    renderCategoryTree s [c] lvl = [(c._id, lvl)] ↔ (c.children = [] ∨ c._id ∉ s) := by
  obtain ⟨i, t, a, ty, l, ch⟩ := c
  by_cases hch : ch.isEmpty
  · have hnil : ch = [] := List.isEmpty_iff.mp hch
    subst hnil
    simp [renderCategoryTree, Category._id, Category.children]
  · have hne : ch ≠ [] := fun hh => hch (by simp [hh])
    by_cases hs : i ∈ s
    · have : renderCategoryTree s ch (lvl + 1) ≠ [] :=
        renderCategoryTree_ne_nil s ch (lvl + 1) hne
      simp [renderCategoryTree, Category._id, Category.children, hch, hs, hne, this]
    · simp [renderCategoryTree, Category._id, Category.children, hch, hs, hne]

lemma renderCategoryTree_congr (s s' : Finset String) (cats : List Category) :
    ∀ (lvl : Nat),
      (∀ n ∈ preorderNodes cats, n.children ≠ [] → (n._id ∈ s ↔ n._id ∈ s')) →
      renderCategoryTree s cats lvl = renderCategoryTree s' cats lvl := by
  induction cats using preorderNodes.induct with
  | case1 => intro lvl _; simp [renderCategoryTree]
  | case2 i t a ty lv ch cs ih_ch ih_cs =>
    intro lvl h
    have hhead : ch ≠ [] → (i ∈ s ↔ i ∈ s') := by
      intro hne
      have := h (Category.mk i t a ty lv ch) (by rw [preorderNodes]; exact List.mem_cons_self _ _)
      simpa [Category._id, Category.children, hne] using this
    have hch' : ∀ n ∈ preorderNodes ch, n.children ≠ [] → (n._id ∈ s ↔ n._id ∈ s') := by
      intro n hn
      exact h n (by rw [preorderNodes]; exact List.mem_cons_of_mem _ (List.mem_append_left _ hn))
    have hcs' : ∀ n ∈ preorderNodes cs, n.children ≠ [] → (n._id ∈ s ↔ n._id ∈ s') := by
      intro n hn
      exact h n (by rw [preorderNodes]; exact List.mem_cons_of_mem _ (List.mem_append_right _ hn))
    rw [renderCategoryTree, renderCategoryTree]
    congr 1
    congr 1
    · by_cases hch : ch.isEmpty
      · simp [hch]
      · have hne : ch ≠ [] := fun hh => hch (by simp [hh])
        by_cases hs : i ∈ s
        · rw [if_pos ⟨by simpa using hch, hs⟩,
              if_pos ⟨by simpa using hch, (hhead hne).mp hs⟩]
          exact ih_ch (lvl + 1) hch'
        · rw [if_neg (fun hc => hs hc.2),
              if_neg (fun hc => hs ((hhead hne).mpr hc.2))]
    · exact ih_cs lvl hcs'

lemma firedValues_cancel (delay : Nat) (i j : TimedInput) (rest : List TimedInput)
    (h : withinWindow delay i j) :
    firedValues delay (i :: j :: rest) = firedValues delay (j :: rest) := by
  unfold withinWindow at h
  rw [firedValues, if_neg (by omega), List.nil_append]

lemma firedValues_of_chain (delay : Nat) :
    ∀ (inputs : List TimedInput) (hne : inputs ≠ []),
      List.Chain' (withinWindow delay) inputs →
      firedValues delay inputs = [(inputs.getLast hne).value]
  | [], hne, _ => absurd rfl hne
  | [i], _, _ => by simp [firedValues]
  | i :: j :: rest, _, h => by
    have hij : withinWindow delay i j := (List.chain'_cons.mp h).1
    have htail := (List.chain'_cons.mp h).2
    rw [firedValues_cancel delay i j rest hij,
        firedValues_of_chain delay (j :: rest) (List.cons_ne_nil j rest) htail,
        List.getLast_cons (List.cons_ne_nil j rest)]

/-- Claim C1 (amended): within a burst of raw search-input events each
new input cancels the previously pending timer, and when the burst's
timer fires, exactly one reload fires carrying the last value of the
burst — provided that value differs from the debounced query in effect
before the burst; when it is equal, the edge-triggered effect sees no
change and no reload fires. -/
theorem debounce_burst_single_reload (delay : Nat) (d0 : String)
    (inputs : List TimedInput) (hne : inputs ≠ [])
    (hburst : List.Chain' (withinWindow delay) inputs) :
    (∀ (i j : TimedInput) (rest : List TimedInput), withinWindow delay i j →
      firedValues delay (i :: j :: rest) = firedValues delay (j :: rest)) ∧
    reloadsOf delay d0 inputs
      = if (inputs.getLast hne).value = d0 then []
        else [(inputs.getLast hne).value] := by
  refine ⟨fun i j rest h => firedValues_cancel delay i j rest h, ?_⟩
  rw [reloadsOf, firedValues_of_chain delay inputs hne hburst]
  simp [publishFired]

/-- Witness for C1 at a concrete burst on the users page: `"a"` at 0ms
then `"ab"` at 300ms (within the 400ms window), starting from debounced
query `""`; exactly one reload fires, carrying `"ab"`. -/
theorem debounce_burst_single_reload_witness :
    reloadsOf usersDebounceDelay "" [TimedInput.mk 0 "a", TimedInput.mk 300 "ab"] = ["ab"] := by
  have h := (debounce_burst_single_reload usersDebounceDelay ""
    [TimedInput.mk 0 "a", TimedInput.mk 300 "ab"] (by simp)
    (by simp [List.chain'_cons, withinWindow, usersDebounceDelay])).2
  simpa [List.getLast] using h

/-- Counterexample to Claim C1 as stated: on the categories page (500ms
delay, debounced query initially `""`), the burst `"a"` at 0ms then `""`
at 100ms lies within the debounce window, yet zero reloads fire — the
surviving timer publishes a value equal to the prior debounced query, so
the edge-triggered load effect is not re-run. -/
theorem debounce_same_value_counterexample :
    List.Chain' (withinWindow categoriesDebounceDelay)
      [TimedInput.mk 0 "a", TimedInput.mk 100 ""] ∧
    reloadsOf categoriesDebounceDelay "" [TimedInput.mk 0 "a", TimedInput.mk 100 ""] = [] ∧
    reloadsOf categoriesDebounceDelay "" [TimedInput.mk 0 "a", TimedInput.mk 100 ""]
      ≠ [(TimedInput.mk 100 "").value] :=
  ⟨by simp [List.chain'_cons, withinWindow, categoriesDebounceDelay], by decide, by decide⟩

/-- Claim C4: `expandAllCategories` replaces the Expansion Set with
exactly the ids of nodes having at least one child, collected over the
full pre-order traversal (leaf ids excluded); `collapseAllCategories`
replaces it with the empty set unconditionally; hence expand-all
followed immediately by collapse-all yields an empty Expansion Set
regardless of prior state. -/
theorem expandAll_collapseAll_spec (cats : List Category) (prev : Finset String) :
    (∀ x, x ∈ expandAllCategories cats prev ↔
      ∃ c, c ∈ preorderNodes cats ∧ c._id = x ∧ c.children ≠ []) ∧
    collapseAllCategories prev = ∅ ∧
    collapseAllCategories (expandAllCategories cats prev) = ∅ :=
  ⟨fun x => mem_collectIds cats x, rfl, rfl⟩

/-- Witness for C4 on the forest `[A{children:[B,C]}]` with a stale
prior Expansion Set `{"Z"}`. -/
theorem expandAll_collapseAll_spec_witness :
    collapseAllCategories (expandAllCategories [catA] {"Z"}) = ∅ ∧
    "A" ∈ expandAllCategories [catA] {"Z"} :=
  ⟨(expandAll_collapseAll_spec [catA] {"Z"}).2.2,
   ((expandAll_collapseAll_spec [catA] {"Z"}).1 "A").mpr
     ⟨catA, by simp [preorderNodes, catA, catB, catC], rfl,
      by simp [catA, Category.children]⟩⟩

/-- Claim C5: `toggleExpanded id` flips the membership of exactly `id`
and changes no other id's membership (symmetric difference with a
singleton); rendering a node's child subtree requires both children and
the node's id in the Expansion Set, so a node renders only its own row
exactly when it is a leaf or its id is absent, and re-toggling an id
restores the previous Expansion Set exactly (descendants' flags were
never mutated). -/
theorem toggle_flip_frame_render (s : Finset String) (id j : String)
    (c : Category) (lvl : Nat) :
    (id ∈ toggleExpanded id s ↔ id ∉ s) ∧
    (j ≠ id → (j ∈ toggleExpanded id s ↔ j ∈ s)) ∧
    toggleExpanded id (toggleExpanded id s) = s ∧
    (renderCategoryTree s [c] lvl = [(c._id, lvl)] ↔
      (c.children = [] ∨ c._id ∉ s)) := by
  refine ⟨?_, ?_, ?_, renderCategoryTree_singleton s c lvl⟩
  · by_cases h : id ∈ s <;> simp [toggleExpanded, h]
  · intro hj
    by_cases h : id ∈ s <;> simp [toggleExpanded, h, hj]
  · by_cases h : id ∈ s
    · have h1 : toggleExpanded id s = s.erase id := by rw [toggleExpanded, if_pos h]
      rw [h1, toggleExpanded, if_neg (by simp), Finset.insert_erase h]
    · have h1 : toggleExpanded id s = insert id s := by rw [toggleExpanded, if_neg h]
      rw [h1, toggleExpanded, if_pos (Finset.mem_insert_self id s),
          Finset.erase_insert h]

/-- Witness for C5 on the spec's example: toggling `"A"` does not change
`"B"`'s membership, and with `{"A"}` expanded the root `A` does not
collapse to a single row. -/
theorem toggle_flip_frame_render_witness :
    ("B" ∈ toggleExpanded "A" (∅ : Finset String) ↔ "B" ∈ (∅ : Finset String)) ∧
    (renderCategoryTree {"A"} [catA] 0 = [(catA._id, 0)] ↔
      (catA.children = [] ∨ catA._id ∉ ({"A"} : Finset String))) :=
  ⟨(toggle_flip_frame_render ∅ "A" "B" catA 0).2.1 (by decide),
   (toggle_flip_frame_render {"A"} "A" "B" catA 0).2.2.2⟩

/-- Counterexample to Claim C9 as stated: toggling the leaf `B` (no
children) is not a no-op on the Expansion Set — it inserts `"B"` into
the empty set. -/
theorem toggle_leaf_counterexample :
    catB.children = [] ∧ toggleExpanded catB._id ∅ ≠ ∅ :=
  ⟨rfl, by decide⟩

/-- Claim C9 (amended): no expand/collapse control is rendered for a
leaf node, so the UI never toggles a leaf; `toggleExpanded` itself flips
the membership of the given id even for a leaf id, but membership of an
id that is not the id of any node with children never affects the
rendered tree. -/
theorem toggle_leaf_amended (c : Category) (s : Finset String)
    (cats : List Category) (lvl : Nat) (hleaf : c.children = []) :
    hasExpandControl c = false ∧
    (c._id ∈ toggleExpanded c._id s ↔ c._id ∉ s) ∧
    ((∀ n ∈ preorderNodes cats, n.children ≠ [] → n._id ≠ c._id) →
      renderCategoryTree (toggleExpanded c._id s) cats lvl
        = renderCategoryTree s cats lvl) := by
  refine ⟨?_, ?_, ?_⟩
  · simp [hasExpandControl, hleaf]
  · by_cases h : c._id ∈ s <;> simp [toggleExpanded, h]
  · intro hno
    refine renderCategoryTree_congr _ s cats lvl ?_
    intro n hn hch
    have hne := hno n hn hch
    by_cases h : c._id ∈ s <;> simp [toggleExpanded, h, hne]

/-- Witness for C9 on the spec's example: the leaf `B` gets no expand
control, and inserting `"B"` into the Expansion Set leaves the rendered
tree unchanged. -/
theorem toggle_leaf_amended_witness :
    hasExpandControl catB = false ∧
    renderCategoryTree (toggleExpanded catB._id ∅) [catA] 0
      = renderCategoryTree (∅ : Finset String) [catA] 0 :=
  ⟨(toggle_leaf_amended catB ∅ [catA] 0 rfl).1,
   (toggle_leaf_amended catB ∅ [catA] 0 rfl).2.2 (by
     intro n hn hch
     simp [preorderNodes, catA, catB, catC] at hn
     rcases hn with rfl | rfl | rfl <;>
       simp_all [Category.children, Category._id, catB])⟩
